import Mathlib

/-!
Verification development for the go-wolfram client library.

The development shallowly embeds the decode-critical parts of the source:

* a JSON value model and a character-level JSON parser standing in for the
  behaviour of Go's `encoding/json` / `json-iterator` on well-formed input
  (objects, arrays, strings with escapes, numbers, literals, whitespace);
* the response data model (`QueryResult`, `Pod`, `Assumptions`, ... ) and the
  field-by-field struct decoding the Go libraries perform (case-insensitive
  key match against the lowercase json tags, unknown keys ignored, `null`
  a no-op for scalar fields and emptying for slice fields);
* `Assumptions.UnmarshalJSON`, the ambiguous-shape decoder dispatching on the
  first byte of the raw value;
* the `fasttemplate` renderer (`New` + `ExecuteString`) used by
  `Assumption.ForActionDisplay`, including the fact that `New` panics when a
  start tag has no matching end tag;
* `Assumption.ForActionDisplay` itself;
* `Client.GetQueryResult` with the transport abstracted away: the function
  receives the HTTP response body as an explicit argument.

Machine integers: Go `int` fields are modelled as unbounded `Int` (overflow of
64-bit integers is irrelevant to every claim).  Go `float64` fields (`timing`,
`parsetiming`) are modelled by the raw numeric token, since no claim inspects
their numeric value and floating point is not shallowly embeddable.
-/

namespace Wolfram

/-- JSON values as produced by the Go json scanners.  Numbers keep their raw
token text, which is what decides whether they can decode into an `int`. -/
inductive Json where
  | null
  | bool (b : Bool)
  | num (raw : String)
  | str (s : String)
  | arr (elems : List Json)
  | obj (fields : List (String × Json))

/-- Skip the JSON insignificant whitespace bytes, as Go's scanner does. -/
def skipWs : List Char → List Char
  | [] => []
  | c :: rest =>
    if c == ' ' || c == '\t' || c == '\n' || c == '\r' then skipWs rest else c :: rest

/-- Value of a hexadecimal digit, as accepted by `encoding/json`'s `getu4`. -/
def hexVal (c : Char) : Option Nat :=
  if '0' ≤ c ∧ c ≤ '9' then some (c.toNat - '0'.toNat)
  else if 'a' ≤ c ∧ c ≤ 'f' then some (c.toNat - 'a'.toNat + 10)
  else if 'A' ≤ c ∧ c ≤ 'F' then some (c.toNat - 'A'.toNat + 10)
  else none

/-- Single-character escapes accepted inside JSON strings. -/
def escChar (c : Char) : Option Char :=
  if c = '"' then some '"'
  else if c = '\\' then some '\\'
  else if c = '/' then some '/'
  else if c = 'b' then some (Char.ofNat 8)
  else if c = 'f' then some (Char.ofNat 12)
  else if c = 'n' then some '\n'
  else if c = 'r' then some '\r'
  else if c = 't' then some '\t'
  else none

/-- Parse the remainder of a JSON string (the opening quote already consumed),
returning the decoded characters and the input after the closing quote.
Mirrors `encoding/json` unquoting: `\uXXXX` escapes combine surrogate pairs and
turn unpaired surrogates into U+FFFD; unescaped control bytes are an error. -/
def parseStringRestF : Nat → List Char → Option (List Char × List Char)
  | 0, _ => none
  | Nat.succ fuel, s =>
    match s with
    | [] => none
    | '"' :: rest => some ([], rest)
    | '\\' :: 'u' :: a :: b :: c :: d :: rest =>
      (match hexVal a, hexVal b, hexVal c, hexVal d with
       | some ha, some hb, some hc, some hd =>
         let n := ((ha * 16 + hb) * 16 + hc) * 16 + hd
         if n < 0xD800 ∨ 0xDFFF < n then
           (parseStringRestF fuel rest).map (fun p => (Char.ofNat n :: p.1, p.2))
         else
           match rest with
           | '\\' :: 'u' :: e :: f :: g :: h :: rest2 =>
             (match hexVal e, hexVal f, hexVal g, hexVal h with
              | some he, some hf, some hg, some hh =>
                let n2 := ((he * 16 + hf) * 16 + hg) * 16 + hh
                if 0xD800 ≤ n ∧ n ≤ 0xDBFF ∧ 0xDC00 ≤ n2 ∧ n2 ≤ 0xDFFF then
                  (parseStringRestF fuel rest2).map (fun p =>
                    (Char.ofNat (0x10000 + (n - 0xD800) * 0x400 + (n2 - 0xDC00)) :: p.1, p.2))
                else
                  (parseStringRestF fuel rest).map (fun p => (Char.ofNat 0xFFFD :: p.1, p.2))
              | _, _, _, _ =>
                (parseStringRestF fuel rest).map (fun p => (Char.ofNat 0xFFFD :: p.1, p.2)))
           | _ => (parseStringRestF fuel rest).map (fun p => (Char.ofNat 0xFFFD :: p.1, p.2))
       | _, _, _, _ => none)
    | '\\' :: e :: rest =>
      (escChar e).bind (fun ec => (parseStringRestF fuel rest).map (fun p => (ec :: p.1, p.2)))
    | c :: rest =>
      if c.toNat < 0x20 then none
      else (parseStringRestF fuel rest).map (fun p => (c :: p.1, p.2))

/-- Parse the remainder of a JSON string with fuel fixed from the input
length (each step consumes at least one character, so the fuel never runs
out on the inputs the fueled version is applied to). -/
def parseStringRest (s : List Char) : Option (List Char × List Char) :=
  parseStringRestF (s.length + 1) s

/-- Longest prefix of decimal digits plus the remaining input. -/
def takeDigits : List Char → List Char × List Char
  | [] => ([], [])
  | c :: rest =>
    if c.isDigit then
      let p := takeDigits rest
      (c :: p.1, p.2)
    else ([], c :: rest)

/-- Integer part of a JSON number: `0`, or a nonzero digit followed by digits
(leading zeros are rejected exactly as Go's scanner rejects them). -/
def parseIntPart : List Char → Option (List Char × List Char)
  | [] => none
  | '0' :: rest =>
    (match rest with
     | d :: _ => if d.isDigit then none else some (['0'], rest)
     | [] => some (['0'], []))
  | c :: rest =>
    if c.isDigit then
      let p := takeDigits rest
      some (c :: p.1, p.2)
    else none

/-- Parse a JSON number token (sign, integer part, optional fraction and
exponent), returning the token characters and the remaining input. -/
def parseNumberTok (s : List Char) : Option (List Char × List Char) :=
  let signed : List Char × List Char :=
    match s with
    | '-' :: rest => (['-'], rest)
    | _ => ([], s)
  match parseIntPart signed.2 with
  | none => none
  | some (ip, s2) =>
    let fracp : Option (List Char × List Char) :=
      match s2 with
      | '.' :: s3 =>
        (match takeDigits s3 with
         | ([], _) => none
         | (ds, s4) => some ('.' :: ds, s4))
      | _ => some ([], s2)
    match fracp with
    | none => none
    | some (fp, s4) =>
      match s4 with
      | 'e' :: s5 => (parseExpRest s5).map (fun p => (signed.1 ++ ip ++ fp ++ 'e' :: p.1, p.2))
      | 'E' :: s5 => (parseExpRest s5).map (fun p => (signed.1 ++ ip ++ fp ++ 'E' :: p.1, p.2))
      | _ => some (signed.1 ++ ip ++ fp, s4)
where
  /-- Exponent digits after the `e`/`E`, with an optional sign. -/
  parseExpRest (s : List Char) : Option (List Char × List Char) :=
    let signed : List Char × List Char :=
      match s with
      | '+' :: rest => (['+'], rest)
      | '-' :: rest => (['-'], rest)
      | _ => ([], s)
    match takeDigits signed.2 with
    | ([], _) => none
    | (ds, r) => some (signed.1 ++ ds, r)

/-- Member loop of a JSON object (first member's opening quote not yet
consumed, whitespace already skipped).  `pv` parses one JSON value. -/
def parseObjItemsF (pv : List Char → Option (Json × List Char)) :
    Nat → List Char → List (String × Json) → Option (Json × List Char)
  | 0, _, _ => none
  | Nat.succ fuel, s, acc =>
    match s with
    | '"' :: rest =>
      (match parseStringRest rest with
       | none => none
       | some (key, r1) =>
         match skipWs r1 with
         | ':' :: r2 =>
           (match pv r2 with
            | none => none
            | some (v, r3) =>
              match skipWs r3 with
              | ',' :: r4 => parseObjItemsF pv fuel (skipWs r4) (acc ++ [(key.asString, v)])
              | '}' :: r4 => some (Json.obj (acc ++ [(key.asString, v)]), r4)
              | _ => none)
         | _ => none)
    | _ => none

/-- Element loop of a JSON array (first element not yet consumed). -/
def parseArrItemsF (pv : List Char → Option (Json × List Char)) :
    Nat → List Char → List Json → Option (Json × List Char)
  | 0, _, _ => none
  | Nat.succ fuel, s, acc =>
    match pv s with
    | none => none
    | some (v, r1) =>
      match skipWs r1 with
      | ',' :: r2 => parseArrItemsF pv fuel r2 (acc ++ [v])
      | ']' :: r2 => some (Json.arr (acc ++ [v]), r2)
      | _ => none

/-- Parse one JSON value (leading whitespace allowed), returning it and the
remaining input.  The fuel argument only bounds nesting depth and member
counts; it is always sufficient for the actual input length. -/
def parseVal : Nat → List Char → Option (Json × List Char)
  | 0, _ => none
  | Nat.succ fuel, s =>
    match skipWs s with
    | [] => none
    | '{' :: rest =>
      (match skipWs rest with
       | '}' :: rest2 => some (Json.obj [], rest2)
       | _ => parseObjItemsF (parseVal fuel) fuel (skipWs rest) [])
    | '[' :: rest =>
      (match skipWs rest with
       | ']' :: rest2 => some (Json.arr [], rest2)
       | _ => parseArrItemsF (parseVal fuel) fuel (skipWs rest) [])
    | '"' :: rest => (parseStringRest rest).map (fun p => (Json.str p.1.asString, p.2))
    | 't' :: 'r' :: 'u' :: 'e' :: rest => some (Json.bool true, rest)
    | 'f' :: 'a' :: 'l' :: 's' :: 'e' :: rest => some (Json.bool false, rest)
    | 'n' :: 'u' :: 'l' :: 'l' :: rest => some (Json.null, rest)
    | s2 => (parseNumberTok s2).map (fun p => (Json.num p.1.asString, p.2))

/-- Parse a complete JSON document: one value with nothing but whitespace
after it, exactly as `json.Unmarshal` requires. -/
def parseJson (s : List Char) : Option Json :=
  match parseVal (s.length + 1) s with
  | some (v, rest) => if skipWs rest = [] then some v else none
  | none => none

/-- Value contains info about an assumption (source `Value`). -/
structure Value where
  name : String
  description : String
  input : String

/-- One assumption made while parsing the query (source `Assumption`). -/
structure Assumption where
  values : List Value
  type : String
  word : String
  template : String
  count : Int

/-- The assumptions collection (source `Assumptions`). -/
structure Assumptions where
  assumption : List Assumption
  count : Int

/-- An assumption that can be displayed and acted upon
(source `ActionAssumption`). -/
structure ActionAssumption where
  label : String
  action : String
  buttonLabel : String
  description : String

/-- HTML image element data (source `Img`). -/
structure Img where
  src : String
  alt : String
  title : String
  width : Int
  height : Int
  contentType : String

/-- One rendering within a pod (source `SubPod`). -/
structure SubPod where
  image : Img
  plaintext : String
  title : String

/-- A refinement of pod detail (source `State`). -/
structure State where
  name : String
  input : String

/-- A titled section of a query result (source `Pod`). -/
structure Pod where
  subPods : List SubPod
  states : List State
  title : String
  scanner : String
  error : Bool
  position : Int
  id : String
  numSubPods : Int

/-- Generalization of the query (source `Generalization`). -/
structure Generalization where
  topic : String
  description : String
  url : String

/-- Spelling suggestion (source `Spellcheck`). -/
structure Spellcheck where
  word : String
  suggestion : String
  text : String

/-- Delimiter-mismatch warning (source `Delimiters`). -/
structure Delimiters where
  text : String

/-- Translation warning (source `Translation`). -/
structure Translation where
  phrase : String
  translation : String
  language : String
  text : String

/-- Alternative of a reinterpretation (source `Alternative`).  Its json tag
`,innerxml` has an empty name, so Go matches the field name `InnerText`. -/
structure Alternative where
  innerText : String

/-- Reinterpretation warning (source `ReInterpretation`). -/
structure ReInterpretation where
  alternatives : List Alternative
  text : String
  new : String

/-- The warnings collection (source `Warnings`). -/
structure Warnings where
  count : Int
  spellchecks : List Spellcheck
  delimiters : List Delimiters
  translations : List Translation
  reInterpretations : List ReInterpretation

/-- What you get back after a request (source `QueryResult`).  The `timing`
and `parseTiming` fields are Go `float64`; they are modelled by the raw
numeric token of the wire value. -/
structure QueryResult where
  query : String
  pods : List Pod
  warnings : Warnings
  assumptions : Assumptions
  generalizations : List Generalization
  success : Bool
  error : Bool
  numPods : Int
  dataTypes : String
  timedOut : String
  timing : String
  parseTiming : String
  parseTimedOut : Bool
  reCalculate : String
  id : String
  host : String
  server : String
  related : String
  version : String

/-- Root of the response document (source `Query`). -/
structure Query where
  result : QueryResult

/-- Go zero value of `Value`. -/
def emptyValue : Value := { name := "", description := "", input := "" }

/-- Go zero value of `Assumption`. -/
def emptyAssumption : Assumption :=
  { values := [], type := "", word := "", template := "", count := 0 }

/-- Go zero value of `Assumptions`. -/
def emptyAssumptions : Assumptions := { assumption := [], count := 0 }

/-- Go zero value of `Img`. -/
def emptyImg : Img :=
  { src := "", alt := "", title := "", width := 0, height := 0, contentType := "" }

/-- Go zero value of `SubPod`. -/
def emptySubPod : SubPod := { image := emptyImg, plaintext := "", title := "" }

/-- Go zero value of `State`. -/
def emptyState : State := { name := "", input := "" }

/-- Go zero value of `Pod`. -/
def emptyPod : Pod :=
  { subPods := [], states := [], title := "", scanner := "", error := false,
    position := 0, id := "", numSubPods := 0 }

/-- Go zero value of `Generalization`. -/
def emptyGeneralization : Generalization := { topic := "", description := "", url := "" }

/-- Go zero value of `Spellcheck`. -/
def emptySpellcheck : Spellcheck := { word := "", suggestion := "", text := "" }

/-- Go zero value of `Delimiters`. -/
def emptyDelimiters : Delimiters := { text := "" }

/-- Go zero value of `Translation`. -/
def emptyTranslation : Translation :=
  { phrase := "", translation := "", language := "", text := "" }

/-- Go zero value of `Alternative`. -/
def emptyAlternative : Alternative := { innerText := "" }

/-- Go zero value of `ReInterpretation`. -/
def emptyReInterpretation : ReInterpretation :=
  { alternatives := [], text := "", new := "" }

/-- Go zero value of `Warnings`. -/
def emptyWarnings : Warnings :=
  { count := 0, spellchecks := [], delimiters := [], translations := [],
    reInterpretations := [] }

/-- Go zero value of `QueryResult`. -/
def emptyQueryResult : QueryResult :=
  { query := "", pods := [], warnings := emptyWarnings,
    assumptions := emptyAssumptions, generalizations := [], success := false,
    error := false, numPods := 0, dataTypes := "", timedOut := "",
    timing := "0", parseTiming := "0", parseTimedOut := false,
    reCalculate := "", id := "", host := "", server := "", related := "",
    version := "" }

/-- Case-insensitive match of an incoming object key against a (lowercase)
json tag, as Go's struct decoding performs for the tags of this source. -/
def ciEq (key tag : String) : Bool :=
  key.toList.map Char.toLower == tag.toList.map Char.toLower

/-- Decode every element of a JSON array with `f`; any failing element fails
the whole decode. -/
def decodeJsonList (f : Json → Option β) : List Json → Option (List β)
  | [] => some []
  | j :: js =>
    match f j, decodeJsonList f js with
    | some b, some bs => some (b :: bs)
    | _, _ => none

/-- Fold the members of a JSON object over a per-field update `step`,
mirroring Go's key-by-key struct decoding (later duplicate keys overwrite). -/
def foldFields (step : α → String → Json → Option α) (cur : α) :
    List (String × Json) → Option α
  | [] => some cur
  | (k, v) :: rest =>
    match step cur k v with
    | some next => foldFields step next rest
    | none => none

/-- Decode a JSON value into a Go struct value starting from `init`:
`null` is a no-op, an object is folded field by field, anything else is a
type error. -/
def unmarshalObjInto (step : α → String → Json → Option α) (init : α) :
    Json → Option α
  | Json.null => some init
  | Json.obj kvs => foldFields step init kvs
  | _ => none

/-- Decode into a Go `string` field: `null` keeps the current value, a JSON
string replaces it, anything else is a type error. -/
def jString (cur : String) : Json → Option String
  | Json.null => some cur
  | Json.str s => some s
  | _ => none

/-- Decode into a Go `bool` field. -/
def jBool (cur : Bool) : Json → Option Bool
  | Json.null => some cur
  | Json.bool b => some b
  | _ => none

/-- Numeric value of a digit string. -/
def natFromDigits (ds : List Char) : Nat :=
  ds.foldl (fun n c => n * 10 + (c.toNat - '0'.toNat)) 0

/-- Decode a raw JSON number token into a Go `int`: only plain integer
tokens are accepted (a fraction or exponent is a type error, as in
`strconv.ParseInt`). -/
def intFromRaw (raw : String) : Option Int :=
  match raw.toList with
  | '-' :: ds =>
    if ds ≠ [] ∧ ds.all (fun c => c.isDigit) then some (-(natFromDigits ds : Int)) else none
  | ds =>
    if ds ≠ [] ∧ ds.all (fun c => c.isDigit) then some ((natFromDigits ds : Int)) else none

/-- Decode into a Go `int` field. -/
def jInt (cur : Int) : Json → Option Int
  | Json.null => some cur
  | Json.num raw => intFromRaw raw
  | _ => none

/-- Decode into a Go `float64` field, modelled by the raw numeric token. -/
def jNum (cur : String) : Json → Option String
  | Json.null => some cur
  | Json.num raw => some raw
  | _ => none

/-- Decode into a Go slice field: `null` sets the nil (empty) slice, an array
replaces the slice with the decoded elements, anything else is a type
error. -/
def jList (elem : Json → Option β) : Json → Option (List β)
  | Json.null => some []
  | Json.arr es => decodeJsonList elem es
  | _ => none

/-- Field update for `Value` (tags `name`, `desc`, `input`). -/
def valueStep (r : Value) (k : String) (v : Json) : Option Value :=
  if ciEq k "name" then (jString r.name v).map (fun x => { r with name := x })
  else if ciEq k "desc" then (jString r.description v).map (fun x => { r with description := x })
  else if ciEq k "input" then (jString r.input v).map (fun x => { r with input := x })
  else some r

/-- Decode one `Value` from a fresh zero value. -/
def decodeValue (j : Json) : Option Value := unmarshalObjInto valueStep emptyValue j

/-- Field update for `Assumption`
(tags `values`, `type`, `word`, `template`, `count`). -/
def assumptionStep (r : Assumption) (k : String) (v : Json) : Option Assumption :=
  if ciEq k "values" then (jList decodeValue v).map (fun x => { r with values := x })
  else if ciEq k "type" then (jString r.type v).map (fun x => { r with type := x })
  else if ciEq k "word" then (jString r.word v).map (fun x => { r with word := x })
  else if ciEq k "template" then (jString r.template v).map (fun x => { r with template := x })
  else if ciEq k "count" then (jInt r.count v).map (fun x => { r with count := x })
  else some r

/-- Decode one `Assumption` from a fresh zero value. -/
def decodeAssumption (j : Json) : Option Assumption :=
  unmarshalObjInto assumptionStep emptyAssumption j

/-- Decode a JSON value into a `[]Assumption`, as `Unmarshal(data, &a.Assumption)`
does: `null` gives the nil slice, an array decodes element-wise. -/
def decodeAssumptionList : Json → Option (List Assumption)
  | Json.null => some []
  | Json.arr es => decodeJsonList decodeAssumption es
  | _ => none

/-- Field update for `Img`. -/
def imgStep (r : Img) (k : String) (v : Json) : Option Img :=
  if ciEq k "src" then (jString r.src v).map (fun x => { r with src := x })
  else if ciEq k "alt" then (jString r.alt v).map (fun x => { r with alt := x })
  else if ciEq k "title" then (jString r.title v).map (fun x => { r with title := x })
  else if ciEq k "width" then (jInt r.width v).map (fun x => { r with width := x })
  else if ciEq k "height" then (jInt r.height v).map (fun x => { r with height := x })
  else if ciEq k "contenttype" then (jString r.contentType v).map (fun x => { r with contentType := x })
  else some r

/-- Field update for `SubPod` (tags `img`, `plaintext`, `title`). -/
def subPodStep (r : SubPod) (k : String) (v : Json) : Option SubPod :=
  if ciEq k "img" then (unmarshalObjInto imgStep r.image v).map (fun x => { r with image := x })
  else if ciEq k "plaintext" then (jString r.plaintext v).map (fun x => { r with plaintext := x })
  else if ciEq k "title" then (jString r.title v).map (fun x => { r with title := x })
  else some r

/-- Decode one `SubPod` from a fresh zero value. -/
def decodeSubPod (j : Json) : Option SubPod := unmarshalObjInto subPodStep emptySubPod j

/-- Field update for `State` (tags `name`, `input`). -/
def stateStep (r : State) (k : String) (v : Json) : Option State :=
  if ciEq k "name" then (jString r.name v).map (fun x => { r with name := x })
  else if ciEq k "input" then (jString r.input v).map (fun x => { r with input := x })
  else some r

/-- Decode one `State` from a fresh zero value. -/
def decodeState (j : Json) : Option State := unmarshalObjInto stateStep emptyState j

/-- Field update for `Pod`. -/
def podStep (r : Pod) (k : String) (v : Json) : Option Pod :=
  if ciEq k "subpods" then (jList decodeSubPod v).map (fun x => { r with subPods := x })
  else if ciEq k "states" then (jList decodeState v).map (fun x => { r with states := x })
  else if ciEq k "title" then (jString r.title v).map (fun x => { r with title := x })
  else if ciEq k "scanner" then (jString r.scanner v).map (fun x => { r with scanner := x })
  else if ciEq k "error" then (jBool r.error v).map (fun x => { r with error := x })
  else if ciEq k "position" then (jInt r.position v).map (fun x => { r with position := x })
  else if ciEq k "id" then (jString r.id v).map (fun x => { r with id := x })
  else if ciEq k "numsubpods" then (jInt r.numSubPods v).map (fun x => { r with numSubPods := x })
  else some r

/-- Decode one `Pod` from a fresh zero value. -/
def decodePod (j : Json) : Option Pod := unmarshalObjInto podStep emptyPod j

/-- Field update for `Generalization` (tags `topic`, `desc`, `url`). -/
def generalizationStep (r : Generalization) (k : String) (v : Json) : Option Generalization :=
  if ciEq k "topic" then (jString r.topic v).map (fun x => { r with topic := x })
  else if ciEq k "desc" then (jString r.description v).map (fun x => { r with description := x })
  else if ciEq k "url" then (jString r.url v).map (fun x => { r with url := x })
  else some r

/-- Decode one `Generalization` from a fresh zero value. -/
def decodeGeneralization (j : Json) : Option Generalization :=
  unmarshalObjInto generalizationStep emptyGeneralization j

/-- Field update for `Spellcheck` (tags `word`, `suggestion`, `text`). -/
def spellcheckStep (r : Spellcheck) (k : String) (v : Json) : Option Spellcheck :=
  if ciEq k "word" then (jString r.word v).map (fun x => { r with word := x })
  else if ciEq k "suggestion" then (jString r.suggestion v).map (fun x => { r with suggestion := x })
  else if ciEq k "text" then (jString r.text v).map (fun x => { r with text := x })
  else some r

/-- Decode one `Spellcheck` from a fresh zero value. -/
def decodeSpellcheck (j : Json) : Option Spellcheck :=
  unmarshalObjInto spellcheckStep emptySpellcheck j

/-- Field update for `Delimiters` (tag `text`). -/
def delimitersStep (r : Delimiters) (k : String) (v : Json) : Option Delimiters :=
  if ciEq k "text" then (jString r.text v).map (fun x => { r with text := x })
  else some r

/-- Decode one `Delimiters` from a fresh zero value. -/
def decodeDelimiters (j : Json) : Option Delimiters :=
  unmarshalObjInto delimitersStep emptyDelimiters j

/-- Field update for `Translation` (tags `phrase`, `trans`, `lang`, `text`). -/
def translationStep (r : Translation) (k : String) (v : Json) : Option Translation :=
  if ciEq k "phrase" then (jString r.phrase v).map (fun x => { r with phrase := x })
  else if ciEq k "trans" then (jString r.translation v).map (fun x => { r with translation := x })
  else if ciEq k "lang" then (jString r.language v).map (fun x => { r with language := x })
  else if ciEq k "text" then (jString r.text v).map (fun x => { r with text := x })
  else some r

/-- Decode one `Translation` from a fresh zero value. -/
def decodeTranslation (j : Json) : Option Translation :=
  unmarshalObjInto translationStep emptyTranslation j

/-- Field update for `Alternative`: the json tag name is empty, so the
match is against the field name `InnerText`. -/
def alternativeStep (r : Alternative) (k : String) (v : Json) : Option Alternative :=
  if ciEq k "innertext" then (jString r.innerText v).map (fun x => { r with innerText := x })
  else some r

/-- Decode one `Alternative` from a fresh zero value. -/
def decodeAlternative (j : Json) : Option Alternative :=
  unmarshalObjInto alternativeStep emptyAlternative j

/-- Field update for `ReInterpretation` (tags `alternative`, `text`, `new`). -/
def reInterpretationStep (r : ReInterpretation) (k : String) (v : Json) : Option ReInterpretation :=
  if ciEq k "alternative" then (jList decodeAlternative v).map (fun x => { r with alternatives := x })
  else if ciEq k "text" then (jString r.text v).map (fun x => { r with text := x })
  else if ciEq k "new" then (jString r.new v).map (fun x => { r with new := x })
  else some r

/-- Decode one `ReInterpretation` from a fresh zero value. -/
def decodeReInterpretation (j : Json) : Option ReInterpretation :=
  unmarshalObjInto reInterpretationStep emptyReInterpretation j

/-- Field update for `Warnings`
(tags `count`, `spellcheck`, `delimiters`, `translation`, `reinterpret`). -/
def warningsStep (r : Warnings) (k : String) (v : Json) : Option Warnings :=
  if ciEq k "count" then (jInt r.count v).map (fun x => { r with count := x })
  else if ciEq k "spellcheck" then (jList decodeSpellcheck v).map (fun x => { r with spellchecks := x })
  else if ciEq k "delimiters" then (jList decodeDelimiters v).map (fun x => { r with delimiters := x })
  else if ciEq k "translation" then (jList decodeTranslation v).map (fun x => { r with translations := x })
  else if ciEq k "reinterpret" then (jList decodeReInterpretation v).map (fun x => { r with reInterpretations := x })
  else some r

/-- The value-level effect of `Assumptions.UnmarshalJSON` when the enclosing
document decode hands it the raw bytes of an already well-formed JSON value:
an object's serialization starts with the byte of an object start, so it is
decoded as exactly one `Assumption` with the count set to 1; an array is
decoded element-wise with the count set to the decoded length; the
serialization of any other value starts with a byte that is neither of the
two, so the unrecognized-shape error is hit and the whole decode fails. -/
def decodeAssumptionsInner : Json → Option Assumptions
  | Json.obj kvs =>
    (decodeAssumption (Json.obj kvs)).map (fun r => { assumption := [r], count := 1 })
  | Json.arr es =>
    (decodeJsonList decodeAssumption es).map (fun l => { assumption := l, count := (l.length : Int) })
  | _ => none

/-- Field update for `QueryResult`.  The `Query` field has no json tag, so
its match is against the field name; `Assumptions` carries the custom
unmarshaler. -/
def queryResultStep (r : QueryResult) (k : String) (v : Json) : Option QueryResult :=
  if ciEq k "query" then (jString r.query v).map (fun x => { r with query := x })
  else if ciEq k "pods" then (jList decodePod v).map (fun x => { r with pods := x })
  else if ciEq k "warnings" then (unmarshalObjInto warningsStep r.warnings v).map (fun x => { r with warnings := x })
  else if ciEq k "assumptions" then (decodeAssumptionsInner v).map (fun x => { r with assumptions := x })
  else if ciEq k "generalization" then (jList decodeGeneralization v).map (fun x => { r with generalizations := x })
  else if ciEq k "success" then (jBool r.success v).map (fun x => { r with success := x })
  else if ciEq k "error" then (jBool r.error v).map (fun x => { r with error := x })
  else if ciEq k "numpods" then (jInt r.numPods v).map (fun x => { r with numPods := x })
  else if ciEq k "datatypes" then (jString r.dataTypes v).map (fun x => { r with dataTypes := x })
  else if ciEq k "timedout" then (jString r.timedOut v).map (fun x => { r with timedOut := x })
  else if ciEq k "timing" then (jNum r.timing v).map (fun x => { r with timing := x })
  else if ciEq k "parsetiming" then (jNum r.parseTiming v).map (fun x => { r with parseTiming := x })
  else if ciEq k "parsetimedout" then (jBool r.parseTimedOut v).map (fun x => { r with parseTimedOut := x })
  else if ciEq k "recalculate" then (jString r.reCalculate v).map (fun x => { r with reCalculate := x })
  else if ciEq k "id" then (jString r.id v).map (fun x => { r with id := x })
  else if ciEq k "host" then (jString r.host v).map (fun x => { r with host := x })
  else if ciEq k "server" then (jString r.server v).map (fun x => { r with server := x })
  else if ciEq k "related" then (jString r.related v).map (fun x => { r with related := x })
  else if ciEq k "version" then (jString r.version v).map (fun x => { r with version := x })
  else some r

/-- Field update for the root `Query` struct (tag `queryresult`). -/
def queryStep (q : Query) (k : String) (v : Json) : Option Query :=
  if ciEq k "queryresult" then
    (unmarshalObjInto queryResultStep q.result v).map (fun x => { result := x })
  else some q

/-- Effect of `json.Unmarshal(data, &a.Assumption[0])`: parse the whole
input as one JSON document and decode it as one `Assumption`. -/
def unmarshalSingleAssumption (data : List Char) : Option Assumption :=
  (parseJson data).bind decodeAssumption

/-- Effect of `jsonLib.Unmarshal(data, &a.Assumption)`: parse the whole
input and decode it as a `[]Assumption`. -/
def unmarshalAssumptionList (data : List Char) : Option (List Assumption) :=
  (parseJson data).bind decodeAssumptionList

/-- Characters of the unrecognized-shape error message, with the offending
first byte spliced into the parentheses as `%s` of `errors.Errorf` does. -/
def shapeErrorMsgChars (c : Char) : List Char :=
  ("assumptions json does not indicate an object or array (".toList ++ [c] ++ ")".toList)

/-- The unrecognized-shape error message as a string. -/
def shapeErrorMsg (c : Char) : String := (shapeErrorMsgChars c).asString

/-- Model of `Assumptions.UnmarshalJSON`: empty input is an error; the first
byte dispatches between object decoding (one record, count 1), array decoding
(count set to the decoded length) and the unrecognized-shape error.  The
underlying library error texts are not modelled, only which branch produced
the error; partial mutation of the receiver on a failed branch is dropped
because the Go caller discards the receiver when an error is returned. -/
def unmarshalAssumptions (data : List Char) : Except String Assumptions :=
  match data with
  | [] => Except.error "no bytes in assumptions to unmarshall"
  | c :: _ =>
    if c = '{' then
      match unmarshalSingleAssumption data with
      | some r => Except.ok { assumption := [r], count := 1 }
      | none => Except.error "json unmarshal error"
    else if c = '[' then
      match unmarshalAssumptionList data with
      | some l => Except.ok { assumption := l, count := (l.length : Int) }
      | none => Except.error "error interpreting assumption"
    else
      Except.error (shapeErrorMsg c)

/-- Whether an `Except` result is a success. -/
def exceptOk : Except ε α → Bool
  | Except.ok _ => true
  | Except.error _ => false

/-- One parsed piece of a `fasttemplate` template: a literal character or a
placeholder tag name. -/
inductive TSeg where
  | text (c : Char)
  | tag (name : List Char)

/-- The scanning loop of `fasttemplate.Template.Reset` with start tag `${`
and end tag `}`: literal text up to the next `${`, then the tag name up to
the next `}`; a missing end tag is the error that `fasttemplate.New` turns
into a panic, modelled by `none`.  `acc` holds the partial tag name while
inside a placeholder. -/
def scanTemplate : List Char → Option (List Char) → Option (List TSeg)
  | [], none => some []
  | [], some _ => none
  | '$' :: '{' :: rest, none => scanTemplate rest (some [])
  | '$' :: '{' :: rest, some tagAcc => scanTemplate rest (some (tagAcc ++ ['$', '{']))
  | c :: rest, acc =>
    match acc with
    | some tagAcc =>
      if c = '}' then (scanTemplate rest none).map (fun segs => TSeg.tag tagAcc :: segs)
      else scanTemplate rest (some (tagAcc ++ [c]))
    | none => (scanTemplate rest none).map (fun segs => TSeg.text c :: segs)

/-- Model of `fasttemplate.New(template, "$\x7b", "\x7d")`: `none` is the
panic on a template whose placeholder has no end tag. -/
def newTemplate (tmpl : List Char) : Option (List TSeg) := scanTemplate tmpl none

/-- Look a tag name up in the substitution map; a missing tag substitutes
the empty string, as `stdTagFunc` writes nothing for an absent key. -/
def lookupSub : List (List Char × List Char) → List Char → List Char
  | [], _ => []
  | (k, v) :: rest, name => if k = name then v else lookupSub rest name

/-- Model of `Template.ExecuteString`: emit every literal character and
replace every tag by its mapped value (empty when unmapped). -/
def renderSegs (m : List (List Char × List Char)) : List TSeg → List Char
  | [] => []
  | TSeg.text c :: rest => c :: renderSegs m rest
  | TSeg.tag name :: rest => lookupSub m name ++ renderSegs m rest

/-- The whole `fasttemplate` pipeline `New` + `ExecuteString` on a template
and substitution map; `none` is the construction-time panic. -/
def fasttemplateRender (tmpl : List Char) (m : List (List Char × List Char)) :
    Option (List Char) :=
  (newTemplate tmpl).map (renderSegs m)

/-- Modelled from the spec: the Template Renderer as §4.2 words it — one
left-to-right pass over the template that copies literal characters and
replaces each placeholder `$\x7bname\x7d` by its mapped value, the empty
string when the name has no mapping entry, with no re-expansion of
substituted text.  The spec leaves a template that ends inside an unclosed
placeholder unspecified; this definition lets such a trailing fragment
contribute nothing. -/
def specRenderScan (m : List (List Char × List Char)) :
    List Char → Option (List Char) → List Char
  | [], _ => []
  | '$' :: '{' :: rest, none => specRenderScan m rest (some [])
  | '$' :: '{' :: rest, some tagAcc => specRenderScan m rest (some (tagAcc ++ ['$', '{']))
  | c :: rest, acc =>
    match acc with
    | some tagAcc =>
      if c = '}' then lookupSub m tagAcc ++ specRenderScan m rest none
      else specRenderScan m rest (some (tagAcc ++ [c]))
    | none => c :: specRenderScan m rest none

/-- The spec's Template Renderer on a whole template. -/
def specRender (m : List (List Char × List Char)) (tmpl : List Char) : List Char :=
  specRenderScan m tmpl none

/-- Outcome of a Go function that returns `(value, error)` but can also
panic: `ok` a returned value, `err` a returned error, `panicked` a panic. -/
inductive GoResult (α : Type) where
  | ok (val : α)
  | err (msg : String)
  | panicked (msg : String)

/-- Whether a `GoResult` is a returned value. -/
def GoResult.isOk : GoResult α → Bool
  | GoResult.ok _ => true
  | _ => false

/-- Whether a `GoResult` is a returned error. -/
def GoResult.isErr : GoResult α → Bool
  | GoResult.err _ => true
  | _ => false

/-- The substitution map `ForActionDisplay` passes to the renderer for one
alternative value: the assumption word, the assumed (first) description and
the current value's description. -/
def actionSubMap (assumption : Assumption) (assumedValue : String) (value : Value) :
    List (List Char × List Char) :=
  [("word".toList, assumption.word.toList),
   ("desc1".toList, assumedValue.toList),
   ("desc2".toList, value.description.toList)]

/-- Model of `Assumption.ForActionDisplay`: fewer than two values is the
`nothing to assume` error; otherwise the template is compiled once
(`fasttemplate.New`, panicking on a malformed template) and rendered per
remaining value, emitting one `ActionAssumption` per value of `Values[1..]`
in order. -/
def forActionDisplay (assumption : Assumption) : GoResult (List ActionAssumption) :=
  if assumption.values.length < 2 then GoResult.err "nothing to assume"
  else
    let assumedValue := (assumption.values.headD emptyValue).description
    match newTemplate assumption.template.toList with
    | none => GoResult.panicked "Cannot find end tag"
    | some segs =>
      GoResult.ok ((assumption.values.drop 1).map (fun value =>
        { label := (renderSegs (actionSubMap assumption assumedValue value) segs).asString
          action := value.input
          buttonLabel := value.name
          description := value.description }))

/-- Uppercase hexadecimal digit, as `net/url` escapes with. -/
def hexDigitChar (n : Nat) : Char :=
  if n < 10 then Char.ofNat ('0'.toNat + n) else Char.ofNat ('A'.toNat + n - 10)

/-- Percent-encode one byte. -/
def percentEncodeByte (b : Nat) : List Char :=
  ['%', hexDigitChar (b / 16), hexDigitChar (b % 16)]

/-- UTF-8 bytes of a character, as Go strings store them. -/
def utf8Bytes (c : Char) : List Nat :=
  let n := c.toNat
  if n < 0x80 then [n]
  else if n < 0x800 then
    [0xC0 + n / 0x40, 0x80 + n % 0x40]
  else if n < 0x10000 then
    [0xE0 + n / 0x1000, 0x80 + n / 0x40 % 0x40, 0x80 + n % 0x40]
  else
    [0xF0 + n / 0x40000, 0x80 + n / 0x1000 % 0x40, 0x80 + n / 0x40 % 0x40, 0x80 + n % 0x40]

/-- The bytes `url.QueryEscape` leaves unescaped. -/
def isUnreservedQueryChar (c : Char) : Bool :=
  c.isAlpha || c.isDigit || c == '-' || c == '_' || c == '.' || c == '~'

/-- Model of `url.QueryEscape`: space becomes `+`, unreserved ASCII bytes
stay, every other byte is percent-encoded with uppercase hex. -/
def urlQueryEscape (s : String) : String :=
  (List.flatten (s.toList.map (fun c =>
    if c == ' ' then ['+']
    else if isUnreservedQueryChar c then [c]
    else List.flatten ((utf8Bytes c).map percentEncodeByte)))).asString

/-- Model of `Client.GetQueryResult` with the transport abstracted: `body`
is the byte payload the HTTP GET returned.  The query is URL-escaped, the
escaped text is stored into the result before unmarshalling (so the wire
document's own fields are decoded on top of it), and a decode failure is the
wrapped error return. -/
def getQueryResult (query : String) (body : List Char) : Except String QueryResult :=
  let q := urlQueryEscape query
  match (parseJson body).bind
      (unmarshalObjInto queryStep { result := { emptyQueryResult with query := q } }) with
  | some d => Except.ok d.result
  | none => Except.error "unable to interpret wolfram alpha json result"

/-- Whether a JSON value, used as the `queryresult` member, carries no key
that Go would match against the untagged `Query` field. -/
def valueEchoFree : Json → Bool
  | Json.obj kvs => kvs.all (fun kv => !(ciEq kv.1 "query"))
  | _ => true

/-- Whether a parsed response document echoes no query field inside any of
its `queryresult` members. -/
def queryEchoFree : Json → Bool
  | Json.obj kvs => kvs.all (fun kv => !(ciEq kv.1 "queryresult") || valueEchoFree kv.2)
  | _ => true

/-- Element-wise decoding preserves length. -/
theorem decodeJsonList_length (f : Json → Option β) :
    ∀ (xs : List Json) (ys : List β), decodeJsonList f xs = some ys → ys.length = xs.length := by
  intro xs
  induction xs with
  | nil =>
    intro ys h
    have h2 : some ([] : List β) = some ys := h
    injection h2 with h3
    subst h3
    rfl
  | cons j js ih =>
    intro ys h
    cases hf : f j with
    | none =>
      rw [decodeJsonList, hf] at h
      exact Option.noConfusion h
    | some b =>
      cases hd : decodeJsonList f js with
      | none =>
        rw [decodeJsonList, hf, hd] at h
        exact Option.noConfusion h
      | some bs =>
        rw [decodeJsonList, hf, hd] at h
        injection h with h3
        subst h3
        show bs.length + 1 = js.length + 1
        rw [ih bs hd]

/-- A successful template scan renders, under `ExecuteString`, exactly what
the spec's single-pass renderer produces on the same input. -/
theorem renderSegs_eq_specRenderScan (m : List (List Char × List Char)) (s : List Char)
    (acc : Option (List Char)) :
    ∀ segs, scanTemplate s acc = some segs → renderSegs m segs = specRenderScan m s acc := by
  induction s, acc using scanTemplate.induct with
  | case1 =>
    intro segs h
    have h2 : some ([] : List TSeg) = some segs := h
    injection h2 with h3
    subst h3
    rfl
  | case2 v =>
    intro segs h
    exact Option.noConfusion (h : (none : Option (List TSeg)) = some segs)
  | case3 rest ih =>
    exact fun segs h => ih segs h
  | case4 rest tagAcc ih =>
    exact fun segs h => ih segs h
  | case5 rest tagAcc x1 x2 ih =>
    intro segs h
    have h2 : (scanTemplate rest none).map (fun s0 => TSeg.tag tagAcc :: s0) = some segs := h
    obtain ⟨segs0, hs0, hmap⟩ := Option.map_eq_some'.mp h2
    subst hmap
    show lookupSub m tagAcc ++ renderSegs m segs0 =
      lookupSub m tagAcc ++ specRenderScan m rest none
    rw [ih segs0 hs0]
  | case6 c rest tagAcc hne x1 x2 ih =>
    intro segs h
    rw [scanTemplate.eq_def] at h
    split at h
    · rename_i heqA heqB
      exact List.noConfusion heqA
    · rename_i v heqA heqB
      exact List.noConfusion heqA
    · rename_i rest2 heqA heqB
      exact Option.noConfusion heqB
    · rename_i rest2 tagAcc2 heqA heqB
      injection heqA with hc hrest
      exact (x2 rest2 tagAcc2 hc hrest heqB).elim
    · rename_i c2 rest2 heqList condA condB
      injection heqList with hc hrest
      subst hc
      subst hrest
      have h2 : (if c = '}' then
          (scanTemplate rest none).map (fun s0 => TSeg.tag tagAcc :: s0)
        else scanTemplate rest (some (tagAcc ++ [c]))) = some segs := h
      rw [if_neg hne] at h2
      rw [specRenderScan.eq_def]
      split
      · rename_i acc3 heqA
        exact List.noConfusion heqA
      · rename_i rest3 heqA heqB
        exact Option.noConfusion heqB
      · rename_i rest3 tagAcc3 heqA heqB
        injection heqA with hc2 hrest2
        exact (x2 rest3 tagAcc3 hc2 hrest2 heqB).elim
      · rename_i c3 rest3 heqList2 condA2 condB2
        injection heqList2 with hc3 hrest3
        subst hc3
        subst hrest3
        show renderSegs m segs =
          if c = '}' then lookupSub m tagAcc ++ specRenderScan m rest none
          else specRenderScan m rest (some (tagAcc ++ [c]))
        rw [if_neg hne]
        exact ih segs h2
  | case7 c rest x1 x2 ih =>
    intro segs h
    rw [scanTemplate.eq_def] at h
    split at h
    · rename_i heqA heqB
      exact List.noConfusion heqA
    · rename_i v heqA heqB
      exact List.noConfusion heqA
    · rename_i rest2 heqA heqB
      injection heqA with hc hrest
      exact (x1 rest2 hc hrest rfl).elim
    · rename_i rest2 tagAcc2 heqA heqB
      exact Option.noConfusion heqB
    · rename_i c2 rest2 heqList condA condB
      injection heqList with hc hrest
      subst hc
      subst hrest
      have h2 : (scanTemplate rest none).map (fun s0 => TSeg.text c :: s0) = some segs := h
      obtain ⟨segs0, hs0, hmap⟩ := Option.map_eq_some'.mp h2
      subst hmap
      rw [specRenderScan.eq_def]
      split
      · rename_i acc3 heqA
        exact List.noConfusion heqA
      · rename_i rest3 heqA heqB
        injection heqA with hc2 hrest2
        exact (x1 rest3 hc2 hrest2 rfl).elim
      · rename_i rest3 tagAcc3 heqA heqB
        exact Option.noConfusion heqB
      · rename_i c3 rest3 heqList2 condA2 condB2
        injection heqList2 with hc3 hrest3
        subst hc3
        subst hrest3
        show c :: renderSegs m segs0 = c :: specRenderScan m rest none
        rw [ih segs0 hs0]

/-- C1: for every raw byte sequence whose first byte is an object start and
whose content decodes as a single Assumption record, `UnmarshalJSON` yields
the collection holding exactly that record and reports count 1. -/
theorem c1_object_single_record (data : List Char) (r : Assumption)
    (hhead : data.head? = some '{')
    (hdec : unmarshalSingleAssumption data = some r) :
    unmarshalAssumptions data = Except.ok { assumption := [r], count := 1 } := by
  cases data with
  | nil => exact Option.noConfusion hhead
  | cons c rest =>
    have hc : c = '{' := by
      have h2 : some c = some '{' := hhead
      injection h2
    subst hc
    show ((match unmarshalSingleAssumption ('{' :: rest) with
      | some r0 => Except.ok { assumption := [r0], count := 1 }
      | none => Except.error "json unmarshal error") : Except String Assumptions) =
      Except.ok { assumption := [r], count := 1 }
    rw [hdec]

/-- Witness for C1 at the concrete input consisting of an empty object. -/
theorem c1_object_single_record_witness :
    ("\x7b\x7d".toList.head? = some '{') ∧
    unmarshalSingleAssumption ("\x7b\x7d".toList) = some emptyAssumption ∧
    unmarshalAssumptions ("\x7b\x7d".toList) =
      Except.ok { assumption := [emptyAssumption], count := 1 } :=
  ⟨rfl, rfl, c1_object_single_record ("\x7b\x7d".toList) emptyAssumption rfl rfl⟩

/-- C2: for every raw byte sequence whose first byte is an array start and
that decodes successfully, the decoded sequence's length equals the number
of top-level array elements and the reported count equals that length. -/
theorem c2_array_length_count (data : List Char) (es : List Json) (a : Assumptions)
    (hhead : data.head? = some '[')
    (hparse : parseJson data = some (Json.arr es))
    (hok : unmarshalAssumptions data = Except.ok a) :
    a.assumption.length = es.length ∧ a.count = (es.length : Int) := by
  cases data with
  | nil => exact Option.noConfusion hhead
  | cons c rest =>
    have hc : c = '[' := by
      have h2 : some c = some '[' := hhead
      injection h2
    subst hc
    have hok2 : (match unmarshalAssumptionList ('[' :: rest) with
      | some l => Except.ok { assumption := l, count := (l.length : Int) }
      | none => (Except.error "error interpreting assumption" : Except String Assumptions)) =
      Except.ok a := hok
    have hUL : unmarshalAssumptionList ('[' :: rest) = decodeJsonList decodeAssumption es := by
      unfold unmarshalAssumptionList
      rw [hparse]
      rfl
    rw [hUL] at hok2
    cases hl : decodeJsonList decodeAssumption es with
    | none =>
      rw [hl] at hok2
      exact Except.noConfusion hok2
    | some l =>
      rw [hl] at hok2
      have h3 : Except.ok (ε := String)
          ({ assumption := l, count := (l.length : Int) } : Assumptions) = Except.ok a := hok2
      injection h3 with h4
      subst h4
      refine ⟨decodeJsonList_length decodeAssumption es l hl, ?_⟩
      show ((l.length : Nat) : Int) = (es.length : Int)
      rw [decodeJsonList_length decodeAssumption es l hl]

/-- Witness for C2 at a concrete one-element array. -/
theorem c2_array_length_count_witness :
    ("[\x7b\x7d]".toList.head? = some '[') ∧
    parseJson ("[\x7b\x7d]".toList) = some (Json.arr [Json.obj []]) ∧
    unmarshalAssumptions ("[\x7b\x7d]".toList) =
      Except.ok { assumption := [emptyAssumption], count := 1 } ∧
    (({ assumption := [emptyAssumption], count := 1 } : Assumptions).assumption.length =
        ([Json.obj []] : List Json).length ∧
      ({ assumption := [emptyAssumption], count := 1 } : Assumptions).count =
        ((([Json.obj []] : List Json).length : Nat) : Int)) :=
  ⟨rfl, rfl, rfl,
    c2_array_length_count ("[\x7b\x7d]".toList) [Json.obj []]
      { assumption := [emptyAssumption], count := 1 } rfl rfl rfl⟩

/-- C3 counterexample: the decoder does not skip leading whitespace: the
input made of a space followed by an empty object fails, while the same
input without the space succeeds. -/
theorem c3_counterexample_whitespace :
    exceptOk (unmarshalAssumptions (' ' :: '{' :: '}' :: [])) = false ∧
    exceptOk (unmarshalAssumptions ('{' :: '}' :: [])) = true :=
  ⟨rfl, rfl⟩

/-- C3 amended: shape dispatch reads the raw value's first byte without any
whitespace skipping, so any input whose first byte is JSON whitespace fails
with the unrecognized-shape error naming that byte. -/
theorem c3_amended_no_whitespace_skip (c : Char) (rest : List Char)
    (hws : c = ' ' ∨ c = '\t' ∨ c = '\n' ∨ c = '\r') :
    unmarshalAssumptions (c :: rest) = Except.error (shapeErrorMsg c) := by
  have h1 : ¬c = '{' := by rcases hws with h | h | h | h <;> subst h <;> decide
  have h2 : ¬c = '[' := by rcases hws with h | h | h | h <;> subst h <;> decide
  simp only [unmarshalAssumptions]
  rw [if_neg h1, if_neg h2]

/-- Witness for C3's amended statement at a space-led input. -/
theorem c3_amended_no_whitespace_skip_witness :
    unmarshalAssumptions (' ' :: '{' :: '}' :: []) = Except.error (shapeErrorMsg ' ') :=
  c3_amended_no_whitespace_skip ' ' ('{' :: '}' :: []) (Or.inl rfl)

/-- C4 counterexample: an input whose first byte is an object start can
still fail (truncated body), so failure is not equivalent to empty input or
a bad first byte. -/
theorem c4_counterexample_object_fails :
    (['{'].head? = some '{') ∧ exceptOk (unmarshalAssumptions ['{']) = false :=
  ⟨rfl, rfl⟩

/-- C4 amended: decoding always fails on empty input and always fails with
the unrecognized-shape error, whose message includes the offending byte,
when the first byte is neither an object nor an array start; these are not
the only failure cases. -/
theorem c4_amended_failure_conditions (data : List Char) :
    (data = [] →
      unmarshalAssumptions data = Except.error "no bytes in assumptions to unmarshall") ∧
    (∀ c rest, data = c :: rest → ¬c = '{' → ¬c = '[' →
      unmarshalAssumptions data = Except.error (shapeErrorMsg c) ∧
        c ∈ shapeErrorMsgChars c) := by
  constructor
  · intro h
    subst h
    rfl
  · intro c rest hd h1 h2
    subst hd
    constructor
    · simp only [unmarshalAssumptions]
      rw [if_neg h1, if_neg h2]
    · unfold shapeErrorMsgChars
      simp

/-- Witness for C4's amended statement at the empty input and at `x`. -/
theorem c4_amended_failure_conditions_witness :
    unmarshalAssumptions [] = Except.error "no bytes in assumptions to unmarshall" ∧
    unmarshalAssumptions ['x'] = Except.error (shapeErrorMsg 'x') ∧
    'x' ∈ shapeErrorMsgChars 'x' :=
  ⟨(c4_amended_failure_conditions []).1 rfl,
   ((c4_amended_failure_conditions ['x']).2 'x' [] rfl (by decide) (by decide)).1,
   ((c4_amended_failure_conditions ['x']).2 'x' [] rfl (by decide) (by decide)).2⟩

/-- C6: `ForActionDisplay` returns the `nothing to assume` error exactly
when the assumption has fewer than two values, and in that case no action
sequence is produced. -/
theorem c6_no_assumption_error_iff (a : Assumption) :
    ((forActionDisplay a).isErr = true ↔ a.values.length < 2) ∧
    (a.values.length < 2 → forActionDisplay a = GoResult.err "nothing to assume") := by
  by_cases h : a.values.length < 2
  · have hfd : forActionDisplay a = GoResult.err "nothing to assume" := by
      unfold forActionDisplay
      rw [if_pos h]
    exact ⟨⟨fun _ => h, fun _ => by rw [hfd]; rfl⟩, fun _ => hfd⟩
  · constructor
    · constructor
      · intro hisErr
        exfalso
        unfold forActionDisplay at hisErr
        rw [if_neg h] at hisErr
        cases htm : newTemplate a.template.toList with
        | none =>
          rw [htm] at hisErr
          exact Bool.noConfusion hisErr
        | some segs =>
          rw [htm] at hisErr
          exact Bool.noConfusion hisErr
      · intro hlt
        exact absurd hlt h
    · intro hlt
      exact absurd hlt h

/-- Witness for C6 at a one-value assumption. -/
theorem c6_no_assumption_error_iff_witness :
    forActionDisplay { emptyAssumption with values := [emptyValue] } =
      GoResult.err "nothing to assume" :=
  (c6_no_assumption_error_iff { emptyAssumption with values := [emptyValue] }).2 (by decide)

/-- C7 counterexample: the code's renderer is not total on templates: a
template with an unclosed placeholder makes template construction fail (a
panic in the source), so rendering produces no output at all. -/
theorem c7_counterexample_unclosed_tag :
    newTemplate ("$\x7bx".toList) = none ∧
    fasttemplateRender ("$\x7bx".toList) [] = none :=
  ⟨rfl, rfl⟩

/-- C7 amended: on every template whose placeholders are all closed, the
code's renderer succeeds and returns exactly what the spec's single
left-to-right pass produces: every placeholder replaced by its mapped value,
unmapped placeholders replaced by the empty string, substituted text never
re-expanded. -/
theorem c7_amended_renders_like_spec (tmpl : List Char) (m : List (List Char × List Char))
    (hwf : (newTemplate tmpl).isSome = true) :
    fasttemplateRender tmpl m = some (specRender m tmpl) := by
  cases hseg : newTemplate tmpl with
  | none =>
    rw [hseg] at hwf
    exact Bool.noConfusion hwf
  | some segs =>
    unfold fasttemplateRender
    rw [hseg]
    show some (renderSegs m segs) = some (specRender m tmpl)
    rw [renderSegs_eq_specRenderScan m tmpl none segs hseg]
    rfl

/-- Input template for the C7 witness: known, repeated and unknown
placeholders. -/
def c7TemplateInput : List Char := "A$\x7bword\x7d B$\x7bword\x7d C$\x7bmissing\x7d D".toList

/-- Substitution map for the C7 witness. -/
def c7MapInput : List (List Char × List Char) := [("word".toList, "w".toList)]

/-- Witness for C7's amended statement at a concrete template. -/
theorem c7_amended_renders_like_spec_witness :
    (newTemplate c7TemplateInput).isSome = true ∧
    fasttemplateRender c7TemplateInput c7MapInput = some (specRender c7MapInput c7TemplateInput) ∧
    specRender c7MapInput c7TemplateInput = "Aw Bw C D".toList :=
  ⟨rfl, c7_amended_renders_like_spec c7TemplateInput c7MapInput rfl, rfl⟩

/-- C10: after every successful decode, the reported count equals the length
of the decoded assumption sequence, in both the object and the array
branch. -/
theorem c10_count_is_length (data : List Char) (a : Assumptions)
    (hok : unmarshalAssumptions data = Except.ok a) :
    a.count = (a.assumption.length : Int) := by
  cases data with
  | nil => exact Except.noConfusion hok
  | cons c rest =>
    by_cases h1 : c = '{'
    · subst h1
      have h2 : (match unmarshalSingleAssumption ('{' :: rest) with
        | some r => Except.ok { assumption := [r], count := 1 }
        | none => (Except.error "json unmarshal error" : Except String Assumptions)) =
        Except.ok a := hok
      cases hr : unmarshalSingleAssumption ('{' :: rest) with
      | none =>
        rw [hr] at h2
        exact Except.noConfusion h2
      | some r =>
        rw [hr] at h2
        injection h2 with h3
        subst h3
        rfl
    · by_cases h2 : c = '['
      · subst h2
        have h3 : (match unmarshalAssumptionList ('[' :: rest) with
          | some l => Except.ok { assumption := l, count := (l.length : Int) }
          | none => (Except.error "error interpreting assumption" : Except String Assumptions)) =
          Except.ok a := hok
        cases hl : unmarshalAssumptionList ('[' :: rest) with
        | none =>
          rw [hl] at h3
          exact Except.noConfusion h3
        | some l =>
          rw [hl] at h3
          injection h3 with h4
          subst h4
          rfl
      · simp only [unmarshalAssumptions] at hok
        rw [if_neg h1, if_neg h2] at hok
        exact Except.noConfusion hok

/-- An assumption with two values whose template has an unclosed
placeholder. -/
def badTemplateAssumption : Assumption :=
  { values := [emptyValue, { name := "Company", description := "a company", input := "X" }],
    type := "Clash", word := "w", template := "$\x7bx", count := 2 }

/-- C5 counterexample: an assumption with two values whose template has an
unclosed placeholder makes `ForActionDisplay` panic in template
construction, so no action list is returned at all. -/
theorem c5_counterexample_bad_template :
    badTemplateAssumption.values.length = 2 ∧
    (forActionDisplay badTemplateAssumption).isOk = false :=
  ⟨rfl, rfl⟩

/-- C5 amended: for every assumption with at least two values whose template
has all placeholders closed, `ForActionDisplay` returns exactly one
`ActionAssumption` per element of the value tail, in order, with the label
rendered by the spec's renderer from the word, the first value's description
and the current value's description, and the action, button label and
description taken from the current value. -/
theorem c5_amended_action_display (a : Assumption)
    (hlen : 2 ≤ a.values.length)
    (hwf : (newTemplate a.template.toList).isSome = true) :
    forActionDisplay a = GoResult.ok ((a.values.drop 1).map (fun value =>
      { label := (specRender
            (actionSubMap a (a.values.headD emptyValue).description value)
            a.template.toList).asString
        action := value.input
        buttonLabel := value.name
        description := value.description })) := by
  have hnlt : ¬a.values.length < 2 := not_lt.mpr hlen
  cases hseg : newTemplate a.template.toList with
  | none =>
    rw [hseg] at hwf
    exact Bool.noConfusion hwf
  | some segs =>
    unfold forActionDisplay
    rw [if_neg hnlt, hseg]
    show GoResult.ok ((a.values.drop 1).map (fun value =>
      ({ label := (renderSegs
            (actionSubMap a (a.values.headD emptyValue).description value) segs).asString
         action := value.input
         buttonLabel := value.name
         description := value.description } : ActionAssumption))) =
      GoResult.ok ((a.values.drop 1).map (fun value =>
      ({ label := (specRender
            (actionSubMap a (a.values.headD emptyValue).description value)
            a.template.toList).asString
         action := value.input
         buttonLabel := value.name
         description := value.description } : ActionAssumption)))
    congr 1
    apply List.map_congr_left
    intro value hv
    rw [renderSegs_eq_specRenderScan
      (actionSubMap a (a.values.headD emptyValue).description value)
      a.template.toList none segs hseg]
    rfl

/-- The dow chemical example assumption from the source's documentation. -/
def dowAssumption : Assumption :=
  { values :=
      [{ name := "Financial", description := "a financial entity",
         input := "*C.dow+chemical-_*Financial-" },
       { name := "Company", description := "a company",
         input := "*C.dow+chemical-_*Company-" }],
    type := "Clash", word := "dow chemical",
    template := "Assuming \"$\x7bword\x7d\" is $\x7bdesc1\x7d. Use as $\x7bdesc2\x7d instead",
    count := 2 }

/-- Witness for C5's amended statement at the dow chemical example. -/
theorem c5_amended_action_display_witness :
    2 ≤ dowAssumption.values.length ∧
    (newTemplate dowAssumption.template.toList).isSome = true ∧
    forActionDisplay dowAssumption = GoResult.ok
      [{ label := "Assuming \"dow chemical\" is a financial entity. Use as a company instead",
         action := "*C.dow+chemical-_*Company-", buttonLabel := "Company",
         description := "a company" }] :=
  ⟨by decide, rfl,
   (c5_amended_action_display dowAssumption (by decide) rfl).trans rfl⟩

/-- Every `QueryResult` field update other than the query field leaves the
query field unchanged. -/
theorem queryResultStep_query_eq (r : QueryResult) (k : String) (v : Json)
    (r2 : QueryResult) (hk : ciEq k "query" = false)
    (h : queryResultStep r k v = some r2) : r2.query = r.query := by
  unfold queryResultStep at h
  rw [hk, if_neg (by decide : ¬(false = true))] at h
  by_cases h0 : ciEq k "pods" = true
  · rw [if_pos h0] at h
    obtain ⟨x, hx, h3⟩ := Option.map_eq_some'.mp h
    rw [← h3]
  · rw [if_neg h0] at h
    by_cases h1 : ciEq k "warnings" = true
    · rw [if_pos h1] at h
      obtain ⟨x, hx, h3⟩ := Option.map_eq_some'.mp h
      rw [← h3]
    · rw [if_neg h1] at h
      by_cases h2 : ciEq k "assumptions" = true
      · rw [if_pos h2] at h
        obtain ⟨x, hx, h3⟩ := Option.map_eq_some'.mp h
        rw [← h3]
      · rw [if_neg h2] at h
        by_cases h3 : ciEq k "generalization" = true
        · rw [if_pos h3] at h
          obtain ⟨x, hx, h3⟩ := Option.map_eq_some'.mp h
          rw [← h3]
        · rw [if_neg h3] at h
          by_cases h4 : ciEq k "success" = true
          · rw [if_pos h4] at h
            obtain ⟨x, hx, h3⟩ := Option.map_eq_some'.mp h
            rw [← h3]
          · rw [if_neg h4] at h
            by_cases h5 : ciEq k "error" = true
            · rw [if_pos h5] at h
              obtain ⟨x, hx, h3⟩ := Option.map_eq_some'.mp h
              rw [← h3]
            · rw [if_neg h5] at h
              by_cases h6 : ciEq k "numpods" = true
              · rw [if_pos h6] at h
                obtain ⟨x, hx, h3⟩ := Option.map_eq_some'.mp h
                rw [← h3]
              · rw [if_neg h6] at h
                by_cases h7 : ciEq k "datatypes" = true
                · rw [if_pos h7] at h
                  obtain ⟨x, hx, h3⟩ := Option.map_eq_some'.mp h
                  rw [← h3]
                · rw [if_neg h7] at h
                  by_cases h8 : ciEq k "timedout" = true
                  · rw [if_pos h8] at h
                    obtain ⟨x, hx, h3⟩ := Option.map_eq_some'.mp h
                    rw [← h3]
                  · rw [if_neg h8] at h
                    by_cases h9 : ciEq k "timing" = true
                    · rw [if_pos h9] at h
                      obtain ⟨x, hx, h3⟩ := Option.map_eq_some'.mp h
                      rw [← h3]
                    · rw [if_neg h9] at h
                      by_cases h10 : ciEq k "parsetiming" = true
                      · rw [if_pos h10] at h
                        obtain ⟨x, hx, h3⟩ := Option.map_eq_some'.mp h
                        rw [← h3]
                      · rw [if_neg h10] at h
                        by_cases h11 : ciEq k "parsetimedout" = true
                        · rw [if_pos h11] at h
                          obtain ⟨x, hx, h3⟩ := Option.map_eq_some'.mp h
                          rw [← h3]
                        · rw [if_neg h11] at h
                          by_cases h12 : ciEq k "recalculate" = true
                          · rw [if_pos h12] at h
                            obtain ⟨x, hx, h3⟩ := Option.map_eq_some'.mp h
                            rw [← h3]
                          · rw [if_neg h12] at h
                            by_cases h13 : ciEq k "id" = true
                            · rw [if_pos h13] at h
                              obtain ⟨x, hx, h3⟩ := Option.map_eq_some'.mp h
                              rw [← h3]
                            · rw [if_neg h13] at h
                              by_cases h14 : ciEq k "host" = true
                              · rw [if_pos h14] at h
                                obtain ⟨x, hx, h3⟩ := Option.map_eq_some'.mp h
                                rw [← h3]
                              · rw [if_neg h14] at h
                                by_cases h15 : ciEq k "server" = true
                                · rw [if_pos h15] at h
                                  obtain ⟨x, hx, h3⟩ := Option.map_eq_some'.mp h
                                  rw [← h3]
                                · rw [if_neg h15] at h
                                  by_cases h16 : ciEq k "related" = true
                                  · rw [if_pos h16] at h
                                    obtain ⟨x, hx, h3⟩ := Option.map_eq_some'.mp h
                                    rw [← h3]
                                  · rw [if_neg h16] at h
                                    by_cases h17 : ciEq k "version" = true
                                    · rw [if_pos h17] at h
                                      obtain ⟨x, hx, h3⟩ := Option.map_eq_some'.mp h
                                      rw [← h3]
                                    · rw [if_neg h17] at h
                                      injection h with h3
                                      rw [← h3]

/-- Folding object members over the `QueryResult` step preserves the query
field when no member key matches it. -/
theorem foldFields_queryResultStep_query (kvs : List (String × Json)) :
    ∀ (r r2 : QueryResult), (∀ kv ∈ kvs, ciEq kv.1 "query" = false) →
      foldFields queryResultStep r kvs = some r2 → r2.query = r.query := by
  induction kvs with
  | nil =>
    intro r r2 _ h
    have h2 : some r = some r2 := h
    injection h2 with h3
    rw [← h3]
  | cons kv rest ih =>
    obtain ⟨k, v⟩ := kv
    intro r r2 hall h
    simp only [foldFields] at h
    cases hstep : queryResultStep r k v with
    | none =>
      rw [hstep] at h
      exact Option.noConfusion h
    | some next =>
      rw [hstep] at h
      have h2 := h
      have hq := queryResultStep_query_eq r k v next
        (hall (k, v) (List.mem_cons_self (k, v) rest)) hstep
      have hrest := ih next r2 (fun kv2 hm => hall kv2 (List.mem_cons_of_mem (k, v) hm)) h2
      rw [hrest, hq]

/-- Decoding a `queryresult` member that echoes no query key preserves the
query field. -/
theorem unmarshalObjInto_queryResultStep_query (v : Json) (r r2 : QueryResult)
    (hecho : valueEchoFree v = true)
    (h : unmarshalObjInto queryResultStep r v = some r2) : r2.query = r.query := by
  cases v with
  | null =>
    have h2 : some r = some r2 := h
    injection h2 with h3
    rw [← h3]
  | obj kvs =>
    have hall : ∀ kv ∈ kvs, ciEq kv.1 "query" = false := by
      intro kv hm
      have hb := List.all_eq_true.mp hecho kv hm
      rw [Bool.not_eq_true'] at hb
      exact hb
    exact foldFields_queryResultStep_query kvs r r2 hall h
  | bool b => exact Option.noConfusion (h : (none : Option QueryResult) = some r2)
  | num s => exact Option.noConfusion (h : (none : Option QueryResult) = some r2)
  | str s => exact Option.noConfusion (h : (none : Option QueryResult) = some r2)
  | arr es => exact Option.noConfusion (h : (none : Option QueryResult) = some r2)

/-- Folding the document's members over the root step preserves the result's
query field when every `queryresult` member is echo-free. -/
theorem foldFields_queryStep_query (kvs : List (String × Json)) :
    ∀ (q0 q2 : Query),
      (∀ kv ∈ kvs, ciEq kv.1 "queryresult" = true → valueEchoFree kv.2 = true) →
      foldFields queryStep q0 kvs = some q2 → q2.result.query = q0.result.query := by
  induction kvs with
  | nil =>
    intro q0 q2 _ h
    have h2 : some q0 = some q2 := h
    injection h2 with h3
    rw [← h3]
  | cons kv rest ih =>
    obtain ⟨k, v⟩ := kv
    intro q0 q2 hall h
    simp only [foldFields] at h
    cases hstep : queryStep q0 k v with
    | none =>
      rw [hstep] at h
      exact Option.noConfusion h
    | some next =>
      rw [hstep] at h
      have h2 := h
      have hq : next.result.query = q0.result.query := by
        unfold queryStep at hstep
        by_cases hci : ciEq k "queryresult" = true
        · rw [if_pos hci] at hstep
          obtain ⟨x, hx, h3⟩ := Option.map_eq_some'.mp hstep
          rw [← h3]
          exact unmarshalObjInto_queryResultStep_query v q0.result x
            (hall (k, v) (List.mem_cons_self (k, v) rest) hci) hx
        · rw [if_neg hci] at hstep
          injection hstep with h3
          rw [← h3]
      have hrest := ih next q2 (fun kv2 hm => hall kv2 (List.mem_cons_of_mem (k, v) hm)) h2
      rw [hrest, hq]

/-- C8 counterexample: the returned query text is the URL-escaped form of
the caller's query, not the original text, and a query field echoed by the
server overwrites the caller's value rather than the reverse. -/
theorem c8_counterexample_escaped_and_overwritten :
    getQueryResult "a b" ("\x7b\x7d".toList) =
      Except.ok { emptyQueryResult with query := "a+b" } ∧
    "a+b" ≠ "a b" ∧
    (getQueryResult "q"
        ("\x7b\"queryresult\":\x7b\"query\":\"server\"\x7d\x7d".toList)).map
      (fun r => r.query) = Except.ok "server" ∧
    "server" ≠ "q" :=
  ⟨rfl, by decide, rfl, by decide⟩

/-- C8 amended: on a successful decode of a response that does not itself
echo a query field, the returned result's query field is the URL-escaped
caller query (it is attached before decoding, so a server-echoed field
would overwrite it). -/
theorem c8_amended_query_field (q : String) (body : List Char) (j : Json) (r : QueryResult)
    (hparse : parseJson body = some j)
    (hecho : queryEchoFree j = true)
    (hok : getQueryResult q body = Except.ok r) :
    r.query = urlQueryEscape q := by
  unfold getQueryResult at hok
  rw [hparse] at hok
  have hok2 : (match unmarshalObjInto queryStep
      { result := { emptyQueryResult with query := urlQueryEscape q } } j with
    | some d => Except.ok d.result
    | none => (Except.error "unable to interpret wolfram alpha json result" :
        Except String QueryResult)) = Except.ok r := hok
  cases hdec : unmarshalObjInto queryStep
      { result := { emptyQueryResult with query := urlQueryEscape q } } j with
  | none =>
    rw [hdec] at hok2
    exact Except.noConfusion hok2
  | some d =>
    rw [hdec] at hok2
    injection hok2 with h3
    rw [← h3]
    cases j with
    | null =>
      have h4 : some ({ result := { emptyQueryResult with query := urlQueryEscape q } } : Query) =
          some d := hdec
      injection h4 with h5
      rw [← h5]
    | obj kvs =>
      have hall : ∀ kv ∈ kvs, ciEq kv.1 "queryresult" = true → valueEchoFree kv.2 = true := by
        intro kv hm hci
        have hb := List.all_eq_true.mp hecho kv hm
        rw [Bool.or_eq_true, Bool.not_eq_true'] at hb
        cases hb with
        | inl hfalse => rw [hci] at hfalse; exact Bool.noConfusion hfalse
        | inr htrue => exact htrue
      exact foldFields_queryStep_query kvs
        { result := { emptyQueryResult with query := urlQueryEscape q } } d hall hdec
    | bool b => exact Option.noConfusion (hdec : (none : Option Query) = some d)
    | num s => exact Option.noConfusion (hdec : (none : Option Query) = some d)
    | str s => exact Option.noConfusion (hdec : (none : Option Query) = some d)
    | arr es => exact Option.noConfusion (hdec : (none : Option Query) = some d)

/-- Witness for C8's amended statement at a concrete echo-free body. -/
theorem c8_amended_query_field_witness :
    parseJson ("\x7b\x7d".toList) = some (Json.obj []) ∧
    queryEchoFree (Json.obj []) = true ∧
    getQueryResult "a b" ("\x7b\x7d".toList) =
      Except.ok { emptyQueryResult with query := "a+b" } ∧
    ({ emptyQueryResult with query := "a+b" } : QueryResult).query = urlQueryEscape "a b" :=
  ⟨rfl, rfl, rfl,
   c8_amended_query_field "a b" ("\x7b\x7d".toList) (Json.obj [])
     { emptyQueryResult with query := "a+b" } rfl rfl rfl⟩

/-- A response body whose query result is unsuccessful yet carries a pod. -/
def c9Body : List Char :=
  "\x7b\"queryresult\":\x7b\"success\":false,\"pods\":[\x7b\"title\":\"T\"\x7d]\x7d\x7d".toList

/-- C9 counterexample: a response with the success flag false and a
nonempty pod array decodes successfully, so decoded results do not satisfy
the claimed invariant. -/
theorem c9_counterexample_success_false_with_pod :
    (getQueryResult "x" c9Body).map (fun r => (r.success, r.pods.length)) =
      Except.ok (false, 1) :=
  rfl

/-- The query result decoded from `c9Body`. -/
def c9Decoded : QueryResult :=
  { emptyQueryResult with
    query := "x"
    success := false
    pods := [{ emptyPod with title := "T" }] }

/-- C9 amended: the decoder does not enforce the success-implies-no-pods
invariant: it is an expectation about server responses, and a decoded
result can have the success flag false together with a nonempty pod
sequence. -/
theorem c9_amended_invariant_not_enforced :
    getQueryResult "x" c9Body = Except.ok c9Decoded ∧
    c9Decoded.success = false ∧ c9Decoded.pods ≠ [] :=
  ⟨rfl, rfl, fun h =>
    List.noConfusion (h : ({ emptyPod with title := "T" } : Pod) :: [] = ([] : List Pod))⟩

/-- Witness for C10 at the empty-array input. -/
theorem c10_count_is_length_witness :
    unmarshalAssumptions ('[' :: ']' :: []) = Except.ok { assumption := [], count := 0 } ∧
    ({ assumption := [], count := 0 } : Assumptions).count =
      (({ assumption := [], count := 0 } : Assumptions).assumption.length : Int) :=
  ⟨rfl, c10_count_is_length ('[' :: ']' :: []) { assumption := [], count := 0 } rfl⟩

end Wolfram
